import Mathlib

/-!
Verification of the document-intake application (frontend document context,
extraction API client, and the Zod field-validation schema) against its
natural-language specification.

The embedding mirrors the TypeScript source:
* `src/frontend/lib/api.ts` — `cleanNumericValue`, `processDocument`;
* `src/frontend/contexts/document-context.tsx` — `uploadDocuments`,
  `loadShipmentRequest`, `updateDocumentData`, `updateBatchStatus`;
* the Zod schema `OceanShipmentDataSchema` (container number, date of export).

JavaScript runtime values of declared type `string` that may actually be
`undefined`/`null` at runtime (fields read off a parsed JSON object) are
modelled as `Option String` (`none` = absent/`undefined`/`null`).  External
effects (Supabase reads/writes, the extraction HTTP call, `crypto.randomUUID`,
`new Date()`) are modelled by an explicit environment supplied to each
operation and by an effect trace the operation returns.
-/

namespace DocIntake

/-- The eight extracted string fields (`OceanShipmentData` in `lib/types`).
At runtime each field read off the extraction response JSON is a string or
`undefined`; both possibilities are kept (`Option String`). -/
structure OceanShipmentData where
  billOfLadingNumber : Option String
  containerNumber : Option String
  consigneeName : Option String
  consigneeAddress : Option String
  dateOfExport : Option String
  lineItemsCount : Option String
  averageGrossWeight : Option String
  averagePrice : Option String
  deriving Repr, DecidableEq

/-- A `Partial<OceanShipmentData>` argument: `some v` means the key is present
with string value `v`, `none` means the key is absent (so the spread
`{...data, ...partial}` keeps the old value). -/
structure PartialShipmentData where
  billOfLadingNumber : Option String := none
  containerNumber : Option String := none
  consigneeName : Option String := none
  consigneeAddress : Option String := none
  dateOfExport : Option String := none
  lineItemsCount : Option String := none
  averageGrossWeight : Option String := none
  averagePrice : Option String := none
  deriving Repr, DecidableEq

/-- The JS object spread `{ ...d.data, ...data }` used by `updateDocumentData`:
keys present in the partial override the existing ones. -/
def mergeData (d : OceanShipmentData) (p : PartialShipmentData) : OceanShipmentData where
  billOfLadingNumber := match p.billOfLadingNumber with
    | some v => some v
    | none => d.billOfLadingNumber
  containerNumber := match p.containerNumber with
    | some v => some v
    | none => d.containerNumber
  consigneeName := match p.consigneeName with
    | some v => some v
    | none => d.consigneeName
  consigneeAddress := match p.consigneeAddress with
    | some v => some v
    | none => d.consigneeAddress
  dateOfExport := match p.dateOfExport with
    | some v => some v
    | none => d.dateOfExport
  lineItemsCount := match p.lineItemsCount with
    | some v => some v
    | none => d.lineItemsCount
  averageGrossWeight := match p.averageGrossWeight with
    | some v => some v
    | none => d.averageGrossWeight
  averagePrice := match p.averagePrice with
    | some v => some v
    | none => d.averagePrice

/-- The all-empty placeholder record built by `loadShipmentRequest` when the
persisted row has no `extracted_data` (`defaultData` in the source). -/
def defaultData : OceanShipmentData where
  billOfLadingNumber := some ""
  containerNumber := some ""
  consigneeName := some ""
  consigneeAddress := some ""
  dateOfExport := some ""
  lineItemsCount := some ""
  averageGrossWeight := some ""
  averagePrice := some ""

/-! ## Extraction client (`src/frontend/lib/api.ts`) -/

/-- The unit words removed by `cleanNumericValue`, lower-cased: the regex
alternation `kg|KG|lbs|LBS|g|G` under the `i` flag. -/
def unitWords : List (List Char) := [['k', 'g'], ['l', 'b', 's'], ['g']]

/-- Whether a character list matches the whole regex
`\s*(kg|KG|lbs|LBS|g|G)\s*$` starting at its head: optional leading
whitespace, then one of the unit words (case-insensitive), then only
whitespace to the end. -/
def isUnitTail (cs : List Char) : Bool :=
  let t := cs.dropWhile Char.isWhitespace
  let u := t.takeWhile (fun c => !c.isWhitespace)
  let rest := t.dropWhile (fun c => !c.isWhitespace)
  rest.all Char.isWhitespace && unitWords.contains (u.map Char.toLower)

/-- `String.replace(/\s*(kg|KG|lbs|LBS|g|G)\s*$/i, "")` on the character
list: the regex is anchored at the end, so the (leftmost) match is the
longest suffix matching `isUnitTail`; that suffix is removed. -/
def stripUnitTail : List Char → List Char
  | [] => []
  | c :: rest => if isUnitTail (c :: rest) then [] else c :: stripUnitTail rest

/-- JS `String.prototype.trim` on a character list: whitespace removed from
both ends. -/
def trimChars (cs : List Char) : List Char :=
  ((cs.dropWhile Char.isWhitespace).reverse.dropWhile Char.isWhitespace).reverse

/-- `cleanNumericValue` from `api.ts`: JS-falsy input (`undefined`, `null`,
`""`) maps to `""`; otherwise the trailing unit suffix is removed and the
result is trimmed. -/
def cleanNumericValue (value : Option String) : String :=
  match value with
  | none => ""
  | some s => if s = "" then "" else String.mk (trimChars (stripUnitTail s.data))

/-- The parsed JSON body of an extraction response: the eight snake_case
keys plus the optional `message` used for error responses.  Absent or
`null` keys are `none`; values are modelled as strings. -/
structure ExtractionJson where
  bill_of_lading_number : Option String := none
  container_number : Option String := none
  consignee_name : Option String := none
  consignee_address : Option String := none
  date_of_export : Option String := none
  line_items_count : Option String := none
  average_gross_weight : Option String := none
  average_price : Option String := none
  message : Option String := none
  deriving Repr, DecidableEq

/-- Outcome of `response.json()`: either a parse failure (the rejection's
error message) or a parsed object. -/
inductive BodyParse where
  | malformed (parseErrMsg : String)
  | parsed (j : ExtractionJson)
  deriving Repr, DecidableEq

/-- Outcome of the `fetch` call in `processDocument`: a network-level
rejection (carrying the thrown `Error`'s message) or an HTTP response with
a status code and a body. -/
inductive FetchResult where
  | networkError (msg : String)
  | response (status : Nat) (body : BodyParse)
  deriving Repr, DecidableEq

/-- `response.ok` in JS: status in the range 200–299. -/
def httpOk (status : Nat) : Bool := 200 ≤ status && status ≤ 299

/-- The template literal `HTTP error! status: ${response.status}`. -/
def httpErrorString (status : Nat) : String :=
  "HTTP error! status: " ++ toString status

/-- The tagged result `{ success, data?, error? }` of `processDocument`. -/
structure ProcessResult where
  success : Bool
  data : Option OceanShipmentData := none
  error : Option String := none
  deriving Repr, DecidableEq

/-- The field mapping in `processDocument`: seven fields copied verbatim
from the response object, the gross weight passed through
`cleanNumericValue`. -/
def mapFields (j : ExtractionJson) : OceanShipmentData where
  billOfLadingNumber := j.bill_of_lading_number
  containerNumber := j.container_number
  consigneeName := j.consignee_name
  consigneeAddress := j.consignee_address
  dateOfExport := j.date_of_export
  lineItemsCount := j.line_items_count
  averageGrossWeight := some (cleanNumericValue j.average_gross_weight)
  averagePrice := j.average_price

/-- `processDocument` from `api.ts`, as a function of the fetch outcome.
On a non-ok response the error message is the body's `message` when that is
truthy (the `.catch(() => ({}))` maps a malformed body to `{}`, whose
`message` is `undefined`), else the HTTP status string; a malformed body of
an ok response rejects inside the `try` and is caught like a network error;
an ok response with a parsed body yields the mapped fields. -/
def processDocument (w : FetchResult) : ProcessResult :=
  match w with
  | .networkError msg => { success := false, error := some msg }
  | .response status body =>
    if httpOk status then
      match body with
      | .malformed m => { success := false, error := some m }
      | .parsed j => { success := true, data := some (mapFields j) }
    else
      let errMsg := match body with
        | .parsed j => match j.message with
          | some m => if m = "" then httpErrorString status else m
          | none => httpErrorString status
        | .malformed _ => httpErrorString status
      { success := false, error := some errMsg }

/-! ## Document context (`src/frontend/contexts/document-context.tsx`) -/

/-- A browser `File` as the context uses it: its `name` and MIME `type`. -/
structure JsFile where
  name : String
  type : String
  deriving Repr, DecidableEq

/-- A `ProcessedDocument`: one uploaded file plus the shared extracted-field
snapshot.  `uploadedAt` is a millisecond timestamp; `fileUrl` is the object
URL created on upload (`none` for records loaded from the store). -/
structure ProcessedDocument where
  id : String
  fileName : String
  fileType : String
  uploadedAt : Int
  data : OceanShipmentData
  fileUrl : Option String := none
  deriving Repr, DecidableEq

/-- A `ProcessBatch`: the session-local aggregate for one upload. -/
structure ProcessBatch where
  id : String
  title : String
  description : Option String
  status : String
  files : List ProcessedDocument
  uploadedAt : Int
  fileCount : Nat
  shipmentRequestId : String
  deriving Repr, DecidableEq

/-- The provider's in-memory state: the five `useState` cells of
`DocumentProvider`. -/
structure CtxState where
  batches : List ProcessBatch
  currentBatch : Option ProcessBatch
  currentDocument : Option ProcessedDocument
  isProcessing : Bool
  error : Option String
  deriving Repr, DecidableEq

/-- One externally visible Supabase operation issued by the context.  Insert
and update effects are recorded only when the store reports success, so the
trace describes what durably happened; reads are recorded so that "no
network read" claims are statable. -/
inductive DbEffect where
  | insertRecord (id title : String) (description : Option String)
      (status userId : String)
  | updateRecord (id status : String) (extracted : OceanShipmentData)
  | insertLog (shipmentRequestId status actor : String)
  | fetchRecord (id : String)
  | fetchRecentFor (userId : String)
  deriving Repr, DecidableEq

/-- A persisted `shipment_requests` row. -/
structure DbRecord where
  id : String
  title : String
  description : Option String
  status : String
  userId : String
  extracted : Option OceanShipmentData
  deriving Repr, DecidableEq

/-- A persisted `shipment_request_logs` row. -/
structure LogRow where
  shipmentRequestId : String
  status : String
  actor : String
  deriving Repr, DecidableEq

/-- The external store's contents, as far as the context writes them. -/
structure DbState where
  records : List DbRecord
  logs : List LogRow
  deriving Repr, DecidableEq

/-- Interpretation of one effect against the store. -/
def applyEffect (db : DbState) : DbEffect → DbState
  | .insertRecord id title description status userId =>
    { db with records := db.records ++ [⟨id, title, description, status, userId, none⟩] }
  | .updateRecord id status extracted =>
    { db with records := db.records.map fun r =>
        if r.id = id then { r with status := status, extracted := some extracted } else r }
  | .insertLog shipmentRequestId status actor =>
    { db with logs := db.logs ++ [⟨shipmentRequestId, status, actor⟩] }
  | .fetchRecord _ => db
  | .fetchRecentFor _ => db

/-- Interpretation of an effect trace, left to right. -/
def applyEffects (db : DbState) (effs : List DbEffect) : DbState :=
  effs.foldl applyEffect db

/-- The file-type check of step 3 of `uploadDocuments`: PDF or one of the
two spreadsheet MIME types. -/
def isValidFileType (mimeType : String) : Bool :=
  mimeType = "application/pdf" ||
  mimeType = "application/vnd.openxmlformats-officedocument.spreadsheetml.sheet" ||
  mimeType = "application/vnd.ms-excel"

/-- `file.name.toLowerCase().endsWith(".pdf")`. -/
def lowerNameIsPdf (name : String) : Bool :=
  match (name.data.map Char.toLower).reverse with
  | 'f' :: 'd' :: 'p' :: '.' :: _ => true
  | _ => false

/-- The external world one `uploadDocuments` call runs against:
the auth result, the insert outcome (`Except.ok` carries the generated row
id), the extraction client's result, the outcome of the status/fields
update, the most recent record id for the principal (used by the failure
logger), and the fresh identifiers/timestamps the call mints. -/
structure UploadEnv where
  user : Option String
  insertResult : Except String String
  extraction : ProcessResult
  updateOk : Bool
  recentShipment : Option String
  freshBatchId : String
  freshDocIds : Nat → String
  objectUrls : Nat → String
  now : Int

/-- The value stored in the `description` column: `description || null`
maps both an absent and an empty-string description to `null`. -/
def dbDescription (description : Option String) : Option String :=
  match description with
  | some d => if d = "" then none else some d
  | none => none

/-- The `catch`/`finally` tail of `uploadDocuments`: set the error, try to
log "processing failed" against the principal's most recent record, reset
`isProcessing`.  The in-memory collections are untouched. -/
def uploadCatch (s0 : CtxState) (env : UploadEnv) (effs : List DbEffect)
    (msg : String) : CtxState × List DbEffect :=
  let effs2 := effs ++ (match env.user with
    | some u =>
      DbEffect.fetchRecentFor u ::
        (match env.recentShipment with
         | some rid => [DbEffect.insertLog rid "processing failed" "AI"]
         | none => [])
    | none => [])
  ({ s0 with error := some msg, isProcessing := false }, effs2)

/-- `uploadDocuments` from the document context, step for step:
authenticate; insert the record with status "pending" (note: before file
validation); validate every file's MIME type, failing on the first invalid
one; log "uploaded" and "processing started"; run the extraction client;
on success build the processed documents and the new batch (status
"needs review"), log "processing done", update the record, and publish the
batch at the front of the collection.  Any failure falls to `uploadCatch`. -/
def uploadDocuments (s : CtxState) (env : UploadEnv) (files : List JsFile)
    (title : String) (description : Option String) : CtxState × List DbEffect :=
  let s0 : CtxState := { s with isProcessing := true, error := none }
  match env.user with
  | none => uploadCatch s0 env [] "Please sign in to upload documents"
  | some userId =>
    match env.insertResult with
    | .error msg =>
      uploadCatch s0 env []
        ("Failed to create shipment request: " ++ (if msg = "" then "Unknown error" else msg))
    | .ok shipmentRequestId =>
      let effs0 :=
        [DbEffect.insertRecord shipmentRequestId title (dbDescription description) "pending" userId]
      match files.find? (fun f => !isValidFileType f.type) with
      | some f =>
        uploadCatch s0 env effs0
          ("Invalid file type for " ++ f.name ++ ". Please upload PDF or Excel files only.")
      | none =>
        let effs1 := effs0 ++
          [DbEffect.insertLog shipmentRequestId "uploaded" userId,
           DbEffect.insertLog shipmentRequestId "processing started" "AI"]
        match env.extraction.data, env.extraction.success with
        | some d, true =>
          let processedFiles : List ProcessedDocument := files.enum.map fun p =>
            { id := env.freshDocIds p.1
              fileName := p.2.name
              fileType := if lowerNameIsPdf p.2.name then "pdf" else "excel"
              uploadedAt := env.now
              data := d
              fileUrl := some (env.objectUrls p.1) }
          let newBatch : ProcessBatch :=
            { id := env.freshBatchId
              title := title
              description := description
              status := "needs review"
              files := processedFiles
              uploadedAt := env.now
              fileCount := files.length
              shipmentRequestId := shipmentRequestId }
          let effs2 := effs1 ++
            [DbEffect.insertLog shipmentRequestId "processing done" "AI"] ++
            (if env.updateOk then [DbEffect.updateRecord shipmentRequestId "needs review" d] else [])
          ({ s0 with
              batches := newBatch :: s.batches
              currentBatch := some newBatch
              currentDocument := processedFiles.head?
              isProcessing := false }, effs2)
        | _, _ =>
          uploadCatch s0 env effs1
            (match env.extraction.error with
             | some e => if e = "" then "Failed to process documents" else e
             | none => "Failed to process documents")

/-- `updateDocumentData`: the pure in-memory merge of a partial field update
into every matching document of every batch, the current batch, and the
current document. -/
def updateDocumentData (s : CtxState) (id : String) (data : PartialShipmentData) :
    CtxState :=
  let mergeDoc := fun (doc : ProcessedDocument) =>
    if doc.id = id then { doc with data := mergeData doc.data data } else doc
  { s with
    batches := s.batches.map fun b => { b with files := b.files.map mergeDoc }
    currentBatch := match s.currentBatch with
      | some cb => some { cb with files := cb.files.map mergeDoc }
      | none => none
    currentDocument := match s.currentDocument with
      | some doc => if doc.id = id then some { doc with data := mergeData doc.data data } else some doc
      | none => none }

/-- `updateBatchStatus`: the pure in-memory status mirror update for the
batch matching the given record id (and the current batch if it matches). -/
def updateBatchStatus (s : CtxState) (shipmentRequestId status : String) : CtxState :=
  { s with
    batches := s.batches.map fun b =>
      if b.shipmentRequestId = shipmentRequestId then { b with status := status } else b
    currentBatch := match s.currentBatch with
      | some cb =>
        if cb.shipmentRequestId = shipmentRequestId
        then some { cb with status := status } else some cb
      | none => none }

/-- A persisted row as `loadShipmentRequest` reads it back. -/
structure ShipmentRow where
  title : String
  description : Option String
  status : String
  extracted_data : Option OceanShipmentData
  created_at : Int
  deriving Repr, DecidableEq

/-- The external world one `loadShipmentRequest` call runs against: the
fetch outcome (`none` models a fetch error or a missing row) and the fresh
document id the call mints. -/
structure LoadEnv where
  fetchResult : Option ShipmentRow
  freshDocId : String

/-- `loadShipmentRequest`: always fetches the persisted row first; on fetch
failure sets the error; otherwise builds a single-document batch from the
row (placeholder all-empty data when no extraction happened), then — only
now — checks the in-memory collection: an existing batch with the same
record id wins and is made current unchanged, else the loaded batch is
inserted at the front. -/
def loadShipmentRequest (s : CtxState) (env : LoadEnv) (shipmentRequestId : String) :
    CtxState × List DbEffect :=
  let s0 : CtxState := { s with isProcessing := true, error := none }
  let effs := [DbEffect.fetchRecord shipmentRequestId]
  match env.fetchResult with
  | none =>
    ({ s0 with error := some "Failed to load shipment request", isProcessing := false }, effs)
  | some row =>
    let processedDoc : ProcessedDocument :=
      { id := env.freshDocId
        fileName := "Loaded from database"
        fileType := "pdf"
        uploadedAt := row.created_at
        data := row.extracted_data.getD defaultData
        fileUrl := none }
    let loadedBatch : ProcessBatch :=
      { id := shipmentRequestId
        title := row.title
        description := row.description
        status := row.status
        files := [processedDoc]
        uploadedAt := row.created_at
        fileCount := 1
        shipmentRequestId := shipmentRequestId }
    match s.batches.find? (fun b => b.shipmentRequestId = shipmentRequestId) with
    | some b =>
      ({ s0 with
          currentBatch := some b
          currentDocument := b.files.head?
          isProcessing := false }, effs)
    | none =>
      ({ s0 with
          batches := loadedBatch :: s.batches
          currentBatch := some loadedBatch
          currentDocument := some processedDoc
          isProcessing := false }, effs)

/-! ## Field validation (`OceanShipmentDataSchema` in `lib/types`)

The container-number rule and the date-of-export rule from the Zod schema.
All relevant strings are ASCII, where JS string length (UTF-16 units) and
`String.length` (code points) agree. -/

/-- The regex test `/^[A-Z]{4}\d{7}$/i`: exactly four ASCII letters
followed by seven ASCII digits. -/
def containerRegexOk (cs : List Char) : Bool :=
  cs.length == 11 && (cs.take 4).all Char.isAlpha && (cs.drop 4).all Char.isDigit

/-- The Zod rule for `containerNumber`: `.min(11)`, `.max(11)`, and the
regex; the value passes iff all three checks pass. -/
def containerNumberValid (s : String) : Bool :=
  decide (11 ≤ s.length) && decide (s.length ≤ 11) && containerRegexOk s.data

/-- Gregorian leap year. -/
def isLeapYear (y : Int) : Bool := (y % 4 == 0 && y % 100 != 0) || y % 400 == 0

/-- Days in a month of the proleptic Gregorian calendar. -/
def daysInMonth (y m : Int) : Int :=
  if m = 2 then (if isLeapYear y then 29 else 28)
  else if m = 4 ∨ m = 6 ∨ m = 9 ∨ m = 11 then 30
  else 31

/-- Days from the Unix epoch to the given civil date (standard
era/year-of-era computation over 400-year cycles). -/
def daysFromCivil (y m d : Int) : Int :=
  let yAdj := if m ≤ 2 then y - 1 else y
  let era := Int.fdiv yAdj 400
  let yoe := yAdj - era * 400
  let mp := if m ≤ 2 then m + 9 else m - 3
  let doy := Int.fdiv (153 * mp + 2) 5 + d - 1
  let doe := yoe * 365 + Int.fdiv yoe 4 - Int.fdiv yoe 100 + doy
  era * 146097 + doe - 719468

/-- Numeric value of an ASCII digit character. -/
def digitVal (c : Char) : Int := (c.toNat : Int) - 48

/-- Parse the calendar-date production `YYYY-MM-DD` of a JS date string and
return the day count from the epoch; component range checks mirror the
ECMAScript ISO parser (invalid month or day-of-month yields an invalid
date). -/
def parseDatePart (cs : List Char) : Option Int :=
  match cs with
  | [y1, y2, y3, y4, '-', m1, m2, '-', d1, d2] =>
    if [y1, y2, y3, y4, m1, m2, d1, d2].all Char.isDigit then
      let y := 1000 * digitVal y1 + 100 * digitVal y2 + 10 * digitVal y3 + digitVal y4
      let m := 10 * digitVal m1 + digitVal m2
      let d := 10 * digitVal d1 + digitVal d2
      if 1 ≤ m ∧ m ≤ 12 ∧ 1 ≤ d ∧ d ≤ daysInMonth y m then
        some (daysFromCivil y m d)
      else none
    else none
  | _ => none

/-- Milliseconds within a day from validated time components. -/
def timeMs (hh mm ss ms : Int) : Option Int :=
  if hh ≤ 23 ∧ mm ≤ 59 ∧ ss ≤ 59 then
    some (hh * 3600000 + mm * 60000 + ss * 1000 + ms)
  else none

/-- Parse the time production `HH:MM`, `HH:MM:SS` or `HH:MM:SS.sss`, with an
optional trailing `Z`, and return the milliseconds within the day. -/
def parseTimePart (cs : List Char) : Option Int :=
  let core := if cs.getLast? = some 'Z' then cs.dropLast else cs
  match core with
  | [h1, h2, ':', mi1, mi2] =>
    if [h1, h2, mi1, mi2].all Char.isDigit then
      timeMs (10 * digitVal h1 + digitVal h2) (10 * digitVal mi1 + digitVal mi2) 0 0
    else none
  | [h1, h2, ':', mi1, mi2, ':', s1, s2] =>
    if [h1, h2, mi1, mi2, s1, s2].all Char.isDigit then
      timeMs (10 * digitVal h1 + digitVal h2) (10 * digitVal mi1 + digitVal mi2)
        (10 * digitVal s1 + digitVal s2) 0
    else none
  | [h1, h2, ':', mi1, mi2, ':', s1, s2, '.', f1, f2, f3] =>
    if [h1, h2, mi1, mi2, s1, s2, f1, f2, f3].all Char.isDigit then
      timeMs (10 * digitVal h1 + digitVal h2) (10 * digitVal mi1 + digitVal mi2)
        (10 * digitVal s1 + digitVal s2)
        (100 * digitVal f1 + 10 * digitVal f2 + digitVal f3)
    else none
  | _ => none

/-- `new Date(val).getTime()` for the ISO 8601 date and date-time formats
(the format the extraction endpoint and the date input produce), at a UTC
locale, in milliseconds since the epoch; `none` is an invalid date.  Other
`Date` input formats are out of the modelled subset and map to `none`. -/
def jsParseDate (s : String) : Option Int :=
  let cs := s.data
  if cs.contains 'T' then
    match parseDatePart (cs.takeWhile (fun c => c != 'T')),
          parseTimePart ((cs.dropWhile (fun c => c != 'T')).drop 1) with
    | some days, some ms => some (days * 86400000 + ms)
    | _, _ => none
  else
    (parseDatePart cs).map (fun days => days * 86400000)

/-- `today.setHours(23, 59, 59, 999)` at a UTC locale: the last millisecond
of the civil day containing `now`. -/
def endOfDayUtc (now : Int) : Int :=
  Int.fdiv now 86400000 * 86400000 + 86399999

/-- The Zod rule for `dateOfExport`: `.min(1)`, then the value must parse as
a valid date, then the parsed date must be `<=` the current day's last
millisecond (`today.setHours(23,59,59,999)` before the comparison). -/
def dateOfExportValid (now : Int) (s : String) : Bool :=
  if 1 ≤ s.length then
    match jsParseDate s with
    | none => false
    | some t => decide (t ≤ endOfDayUtc now)
  else false

/-! ## Claims -/

/-- C7: the container-number validation rule accepts a string iff it is
exactly 11 characters consisting of 4 letters followed by 7 digits; in
particular "ABC123" is rejected and "MSCU1234567" is accepted. -/
theorem claim_C7_container_number_rule :
    (∀ s : String, containerNumberValid s = true ↔
      ∃ pre post : List Char, s.data = pre ++ post ∧ pre.length = 4 ∧ post.length = 7 ∧
        pre.all Char.isAlpha = true ∧ post.all Char.isDigit = true) ∧
    containerNumberValid "ABC123" = false ∧ containerNumberValid "MSCU1234567" = true := by
  refine ⟨fun s => ?_, by decide, by decide⟩
  constructor
  · intro h
    simp only [containerNumberValid, containerRegexOk, Bool.and_eq_true, decide_eq_true_eq,
      beq_iff_eq] at h
    obtain ⟨⟨h1, h2⟩, ⟨hlen, htake⟩, hdrop⟩ := h
    refine ⟨s.data.take 4, s.data.drop 4, (List.take_append_drop 4 s.data).symm, ?_, ?_, htake, hdrop⟩
    · simp [List.length_take, hlen]
    · simp [List.length_drop, hlen]
  · rintro ⟨pre, post, hs, h4, h7, ha, hd⟩
    have hlen : s.data.length = 11 := by simp [hs, h4, h7]
    have hslen : s.length = 11 := hlen
    have htake : s.data.take 4 = pre := by
      rw [hs, ← h4, List.take_left]
    have hdrop : s.data.drop 4 = post := by
      rw [hs, ← h4, List.drop_left]
    simp [containerNumberValid, containerRegexOk, hslen, hlen, htake, hdrop, ha, hd]

/-- C8 counterexample: at the current moment 10:00:00 UTC on 2026-10-11, the
date-of-export rule accepts "2026-10-11T23:00:00Z", a valid date strictly
after the current moment of evaluation — refuting "accepts iff it parses as
a valid date and that date is not after the current moment". -/
theorem claim_C8_counterexample :
    dateOfExportValid (daysFromCivil 2026 10 11 * 86400000 + 36000000)
      "2026-10-11T23:00:00Z" = true ∧
    jsParseDate "2026-10-11T23:00:00Z" =
      some (daysFromCivil 2026 10 11 * 86400000 + 82800000) ∧
    daysFromCivil 2026 10 11 * 86400000 + 36000000 <
      daysFromCivil 2026 10 11 * 86400000 + 82800000 := by
  refine ⟨by decide, by decide, by decide⟩

/-- C8 (amended): the date-of-export rule accepts a string iff it parses as
a valid date and that date is not after the last millisecond (23:59:59.999)
of the day containing the current moment of evaluation. -/
theorem claim_C8_date_of_export_rule :
    ∀ (now : Int) (s : String), dateOfExportValid now s = true ↔
      ∃ t, jsParseDate s = some t ∧ t ≤ endOfDayUtc now := by
  intro now s
  by_cases hlen : 1 ≤ s.length
  · simp only [dateOfExportValid, if_pos hlen]
    cases hp : jsParseDate s with
    | none => simp
    | some t => simp
  · have hnil : s.data = [] := by
      have : s.length = 0 := by omega
      exact List.length_eq_zero.mp this
    have hnone : jsParseDate s = none := by
      simp [jsParseDate, hnil, parseDatePart]
    simp [dateOfExportValid, if_neg hlen, hnone]

/-- C10: when the extraction response omits or nulls `average_gross_weight`,
the success result's `averageGrossWeight` is the empty string, while the
other seven fields are copied verbatim from the response; and
`cleanNumericValue` maps absent (`undefined`/`null`) and empty input
to the empty string. -/
theorem claim_C10_missing_gross_weight :
    (∀ (status : Nat) (j : ExtractionJson), httpOk status = true →
      j.average_gross_weight = none →
      processDocument (.response status (.parsed j)) =
        { success := true
          data := some
            { billOfLadingNumber := j.bill_of_lading_number
              containerNumber := j.container_number
              consigneeName := j.consignee_name
              consigneeAddress := j.consignee_address
              dateOfExport := j.date_of_export
              lineItemsCount := j.line_items_count
              averageGrossWeight := some ""
              averagePrice := j.average_price }
          error := none }) ∧
    cleanNumericValue none = "" ∧ cleanNumericValue (some "") = "" := by
  refine ⟨fun status j hok hgw => ?_, rfl, by decide⟩
  simp [processDocument, hok, mapFields, hgw, cleanNumericValue]

/-- C10 witness: a concrete 200 response whose JSON has no
`average_gross_weight` key. -/
theorem claim_C10_witness :
    processDocument (.response 200 (.parsed
      { bill_of_lading_number := some "ZMLU34110002", average_gross_weight := none })) =
      { success := true
        data := some
          { billOfLadingNumber := some "ZMLU34110002"
            containerNumber := none
            consigneeName := none
            consigneeAddress := none
            dateOfExport := none
            lineItemsCount := none
            averageGrossWeight := some ""
            averagePrice := none }
        error := none } :=
  claim_C10_missing_gross_weight.1 200
    { bill_of_lading_number := some "ZMLU34110002", average_gross_weight := none }
    (by decide) rfl

/-- Every character of a unit word is one of the five unit letters. -/
theorem mem_letters_of_mem_word {w : List Char} (hw : w ∈ unitWords) {x : Char}
    (hx : x ∈ w) : x ∈ (['k', 'g', 'l', 'b', 's'] : List Char) := by
  fin_cases hw <;> fin_cases hx <;> decide

/-- Every character of a string matched by the unit-suffix regex
`\s*(kg|KG|lbs|LBS|g|G)\s*$` is whitespace or, case-insensitively, a letter
of one of the unit words. -/
theorem mem_isUnitTail {cs : List Char} (h : isUnitTail cs = true) :
    ∀ c ∈ cs, c.isWhitespace = true ∨ c.toLower ∈ (['k', 'g', 'l', 'b', 's'] : List Char) := by
  intro c hc
  simp only [isUnitTail, Bool.and_eq_true] at h
  obtain ⟨hall, hcont⟩ := h
  have hdec : cs.takeWhile Char.isWhitespace ++ cs.dropWhile Char.isWhitespace = cs :=
    List.takeWhile_append_dropWhile _ _
  rw [← hdec] at hc
  rcases List.mem_append.mp hc with h1 | h2
  · exact .inl (List.mem_takeWhile_imp h1)
  · have hdec2 :
        (cs.dropWhile Char.isWhitespace).takeWhile (fun c => !c.isWhitespace) ++
          (cs.dropWhile Char.isWhitespace).dropWhile (fun c => !c.isWhitespace) =
          cs.dropWhile Char.isWhitespace :=
      List.takeWhile_append_dropWhile _ _
    rw [← hdec2] at h2
    rcases List.mem_append.mp h2 with h3 | h4
    · right
      have hmem :
          ((cs.dropWhile Char.isWhitespace).takeWhile (fun c => !c.isWhitespace)).map
            Char.toLower ∈ unitWords := by
        simpa [unitWords] using hcont
      have hcm : c.toLower ∈
          ((cs.dropWhile Char.isWhitespace).takeWhile (fun c => !c.isWhitespace)).map
            Char.toLower :=
        List.mem_map_of_mem _ h3
      exact mem_letters_of_mem_word hmem hcm
    · have := List.all_eq_true.mp hall _ h4
      exact .inl this

/-- A string fully matched by the unit-suffix regex is removed whole. -/
theorem stripUnitTail_eq_nil {cs : List Char} (h : isUnitTail cs = true) :
    stripUnitTail cs = [] := by
  cases cs with
  | nil => simp [stripUnitTail]
  | cons c rest => simp [stripUnitTail, h]

/-- Removing the unit suffix from `xs ++ ys` leaves `xs` whenever `ys`
matches the regex and the last character of `xs` is neither whitespace nor
a unit letter (so no earlier, longer suffix can match). -/
theorem stripUnitTail_append {xs ys : List Char} {c : Char}
    (hl : xs.getLast? = some c) (hws : c.isWhitespace = false)
    (hnu : c.toLower ∉ (['k', 'g', 'l', 'b', 's'] : List Char))
    (hys : isUnitTail ys = true) :
    stripUnitTail (xs ++ ys) = xs := by
  revert hl
  induction xs with
  | nil => intro hl; simp at hl
  | cons a xs ih =>
    intro hl
    have hcmem : c ∈ a :: xs := List.mem_of_mem_getLast? hl
    have hmem2 : c ∈ a :: (xs ++ ys) := by
      rcases List.mem_cons.mp hcmem with rfl | h
      · exact List.mem_cons_self _ _
      · exact List.mem_cons_of_mem _ (List.mem_append_left ys h)
    have hfalse : isUnitTail (a :: (xs ++ ys)) = false := by
      by_contra hcon
      have htrue : isUnitTail (a :: (xs ++ ys)) = true := by
        revert hcon; cases isUnitTail (a :: (xs ++ ys)) <;> simp
      rcases mem_isUnitTail htrue c hmem2 with h | h
      · rw [hws] at h; exact Bool.noConfusion h
      · exact hnu h
    rw [List.cons_append]
    simp only [stripUnitTail, hfalse, Bool.false_eq_true, if_false]
    congr 1
    cases xs with
    | nil => simpa using stripUnitTail_eq_nil hys
    | cons b xs' =>
      have hl' : (b :: xs').getLast? = some c := by
        rw [List.getLast?_cons_cons] at hl; exact hl
      exact ih hl'

/-- C6: the gross-weight value is stored only after `cleanNumericValue`:
trailing case-insensitive unit suffixes ("kg", "lbs", "g") together with
the whitespace around them are stripped and the remainder is trimmed; in
particular "162.37 KG" is normalized to "162.37". -/
theorem claim_C6_gross_weight_normalized :
    (∀ j : ExtractionJson,
      (mapFields j).averageGrossWeight = some (cleanNumericValue j.average_gross_weight)) ∧
    (∀ (xs ys : List Char) (c : Char), xs.getLast? = some c → c.isWhitespace = false →
      c.toLower ∉ (['k', 'g', 'l', 'b', 's'] : List Char) → isUnitTail ys = true →
      cleanNumericValue (some (String.mk (xs ++ ys))) = String.mk (trimChars xs)) ∧
    cleanNumericValue (some "162.37 KG") = "162.37" := by
  refine ⟨fun j => rfl, fun xs ys c hl hws hnu hys => ?_, by decide⟩
  have hxs : xs ≠ [] := by rintro rfl; simp at hl
  have hne : String.mk (xs ++ ys) ≠ "" := by
    intro hcon
    have hdata : xs ++ ys = [] := congrArg String.data hcon
    exact hxs (List.append_eq_nil.mp hdata).1
  simp only [cleanNumericValue, if_neg hne]
  rw [stripUnitTail_append hl hws hnu hys]

/-- C6 witness: "162.37" followed by the unit tail " KG" cleans to the
trimmed "162.37". -/
theorem claim_C6_witness :
    cleanNumericValue (some (String.mk
      (['1', '6', '2', '.', '3', '7'] ++ [' ', 'K', 'G']))) =
      String.mk (trimChars ['1', '6', '2', '.', '3', '7']) :=
  claim_C6_gross_weight_normalized.2.1 ['1', '6', '2', '.', '3', '7'] [' ', 'K', 'G'] '7'
    (by decide) (by decide) (by decide) (by decide)

/-- C1: with a present principal and only valid-type files, `uploadDocuments`
either publishes exactly one new batch, whose status is "needs review" (and
no error), or fails leaving the collection unchanged with an error surfaced;
no batch is ever left in status "pending". -/
theorem claim_C1_upload_never_leaves_pending :
    ∀ (s : CtxState) (env : UploadEnv) (files : List JsFile) (title : String)
      (description : Option String),
      env.user.isSome = true →
      (∀ f ∈ files, isValidFileType f.type = true) →
      title ≠ "" →
      (∃ b, ((uploadDocuments s env files title description).1).batches = b :: s.batches ∧
        b.status = "needs review" ∧
        ((uploadDocuments s env files title description).1).error = none) ∨
      (((uploadDocuments s env files title description).1).batches = s.batches ∧
        ((uploadDocuments s env files title description).1).error.isSome = true) := by
  intro s env files title description huser hvalid htitle
  obtain ⟨user, insertResult, extraction, updateOk, recentShipment, fb, fd, ou, now⟩ := env
  cases user with
  | none => simp at huser
  | some u =>
    cases insertResult with
    | error m => right; simp [uploadDocuments, uploadCatch]
    | ok rid =>
      have hfind : files.find? (fun f => !isValidFileType f.type) = none := by
        rw [List.find?_eq_none]
        intro f hf
        simp [hvalid f hf]
      obtain ⟨esucc, edata, eerr⟩ := extraction
      cases edata with
      | none => right; simp [uploadDocuments, uploadCatch, hfind]
      | some d =>
        cases esucc with
        | false => right; simp [uploadDocuments, uploadCatch, hfind]
        | true =>
          left
          simp only [uploadDocuments, hfind]
          exact ⟨_, rfl, rfl, trivial⟩

/-- An empty provider state. -/
def emptyCtx : CtxState := ⟨[], none, none, false, none⟩

/-- An environment for a fully successful upload run. -/
def envOk : UploadEnv :=
  ⟨some "u1", .ok "r1", ⟨true, some defaultData, none⟩, true, none, "b1",
    fun _ => "d1", fun _ => "url1", 0⟩

/-- An environment whose extraction is never reached because a file is
rejected; the principal's most recent record is "r1". -/
def envBadFile : UploadEnv :=
  ⟨some "u1", .ok "r1", ⟨false, none, none⟩, true, some "r1", "b1",
    fun _ => "d1", fun _ => "url1", 0⟩

/-- An environment with no signed-in principal. -/
def envNoAuth : UploadEnv :=
  ⟨none, .error "x", ⟨false, none, none⟩, true, none, "b1",
    fun _ => "d1", fun _ => "url1", 0⟩

/-- A state carrying a stale error and a processing flag. -/
def staleCtx : CtxState := ⟨[], none, none, true, some "old error"⟩

/-- C1 witness: a successful one-PDF upload run with a signed-in user. -/
theorem claim_C1_witness :
    (∃ b, ((uploadDocuments emptyCtx envOk [⟨"inv.pdf", "application/pdf"⟩]
        "Batch A" none).1).batches = b :: emptyCtx.batches ∧
      b.status = "needs review" ∧
      ((uploadDocuments emptyCtx envOk [⟨"inv.pdf", "application/pdf"⟩]
        "Batch A" none).1).error = none) ∨
    (((uploadDocuments emptyCtx envOk [⟨"inv.pdf", "application/pdf"⟩]
        "Batch A" none).1).batches = emptyCtx.batches ∧
      ((uploadDocuments emptyCtx envOk [⟨"inv.pdf", "application/pdf"⟩]
        "Batch A" none).1).error.isSome = true) :=
  claim_C1_upload_never_leaves_pending emptyCtx envOk [⟨"inv.pdf", "application/pdf"⟩]
    "Batch A" none rfl (by decide) (by decide)

/-- C2: when some file has an invalid MIME type (with a principal present
and the insert succeeded), `uploadDocuments` fails with the validation error
naming the first invalid file, publishes no batch, and the record row
inserted earlier in the call is not rolled back: interpreting the call's
effect trace against an empty store leaves exactly one row, still "pending"
with no extracted data. -/
theorem claim_C2_invalid_file_row_kept :
    ∀ (s : CtxState) (env : UploadEnv) (files : List JsFile) (title : String)
      (description : Option String) (u rid : String) (f0 : JsFile),
      env.user = some u →
      env.insertResult = .ok rid →
      files.find? (fun f => !isValidFileType f.type) = some f0 →
      ((uploadDocuments s env files title description).1).error =
        some ("Invalid file type for " ++ f0.name ++ ". Please upload PDF or Excel files only.") ∧
      ((uploadDocuments s env files title description).1).batches = s.batches ∧
      (applyEffects ⟨[], []⟩ (uploadDocuments s env files title description).2).records =
        [⟨rid, title, dbDescription description, "pending", u, none⟩] := by
  intro s env files title description u rid f0 hu hins hfind
  obtain ⟨user, insertResult, extraction, updateOk, recentShipment, fb, fd, ou, now⟩ := env
  simp only at hu hins
  subst hu hins
  cases recentShipment with
  | none =>
    refine ⟨?_, ?_, ?_⟩ <;> simp [uploadDocuments, uploadCatch, hfind, applyEffects, applyEffect]
  | some r2 =>
    refine ⟨?_, ?_, ?_⟩ <;> simp [uploadDocuments, uploadCatch, hfind, applyEffects, applyEffect]

/-- C2 witness: uploading a .docx file among the batch leaves the orphaned
pending row. -/
theorem claim_C2_witness :
    ((uploadDocuments emptyCtx envBadFile [⟨"report.docx", "application/msword"⟩]
        "Batch A" none).1).error =
      some ("Invalid file type for report.docx. Please upload PDF or Excel files only.") ∧
    ((uploadDocuments emptyCtx envBadFile [⟨"report.docx", "application/msword"⟩]
        "Batch A" none).1).batches = emptyCtx.batches ∧
    (applyEffects ⟨[], []⟩ (uploadDocuments emptyCtx envBadFile
        [⟨"report.docx", "application/msword"⟩] "Batch A" none).2).records =
      [⟨"r1", "Batch A", dbDescription none, "pending", "u1", none⟩] :=
  claim_C2_invalid_file_row_kept emptyCtx envBadFile
    [⟨"report.docx", "application/msword"⟩] "Batch A" none "u1" "r1"
    ⟨"report.docx", "application/msword"⟩ rfl rfl (by decide)

/-- C9: on every failing execution of `uploadDocuments` (missing principal,
record-creation failure, invalid file type, or extraction failure) the
in-memory state is unchanged except that the error string is set (replacing
any previous error) and `isProcessing` is reset to false. -/
theorem claim_C9_failure_preserves_memory :
    ∀ (s : CtxState) (env : UploadEnv) (files : List JsFile) (title : String)
      (description : Option String),
      (env.user = none ∨ (∃ m, env.insertResult = .error m) ∨
        (∃ f ∈ files, isValidFileType f.type = false) ∨
        env.extraction.success = false ∨ env.extraction.data = none) →
      ∃ msg, (uploadDocuments s env files title description).1 =
        { s with error := some msg, isProcessing := false } := by
  intro s env files title description hfail
  obtain ⟨user, insertResult, extraction, updateOk, recentShipment, fb, fd, ou, now⟩ := env
  cases user with
  | none => exact ⟨"Please sign in to upload documents", rfl⟩
  | some u =>
    cases insertResult with
    | error m =>
      exact ⟨"Failed to create shipment request: " ++ (if m = "" then "Unknown error" else m), rfl⟩
    | ok rid =>
      have hinvalid : (∃ f ∈ files, isValidFileType f.type = false) ∨
          extraction.success = false ∨ extraction.data = none := by
        rcases hfail with h | ⟨m, h⟩ | h | h | h
        · exact absurd h (by simp)
        · exact absurd h (by simp)
        · exact .inl h
        · exact .inr (.inl h)
        · exact .inr (.inr h)
      cases hfind : files.find? (fun f => !isValidFileType f.type) with
      | some g =>
        refine ⟨"Invalid file type for " ++ g.name ++ ". Please upload PDF or Excel files only.", ?_⟩
        simp [uploadDocuments, uploadCatch, hfind]
      | none =>
        have hext : extraction.success = false ∨ extraction.data = none := by
          rcases hinvalid with ⟨f, hf, hinv⟩ | h
          · exfalso
            have := List.find?_eq_none.mp hfind f hf
            simp [hinv] at this
          · exact h
        obtain ⟨esucc, edata, eerr⟩ := extraction
        cases edata with
        | none =>
          cases eerr with
          | none =>
            exact ⟨"Failed to process documents",
              by simp [uploadDocuments, uploadCatch, hfind]⟩
          | some e =>
            exact ⟨if e = "" then "Failed to process documents" else e,
              by simp [uploadDocuments, uploadCatch, hfind]⟩
        | some d =>
          cases esucc with
          | true => simp at hext
          | false =>
            cases eerr with
            | none =>
              exact ⟨"Failed to process documents",
                by simp [uploadDocuments, uploadCatch, hfind]⟩
            | some e =>
              exact ⟨if e = "" then "Failed to process documents" else e,
                by simp [uploadDocuments, uploadCatch, hfind]⟩

/-- C9 witness: an upload attempted with no signed-in principal, against a
state carrying a previous error. -/
theorem claim_C9_witness :
    ∃ msg, (uploadDocuments staleCtx envNoAuth [] "t" none).1 =
      { staleCtx with error := some msg, isProcessing := false } :=
  claim_C9_failure_preserves_memory staleCtx envNoAuth [] "t" none (.inl rfl)

/-- The session-resident batch used to exercise `loadShipmentRequest`. -/
def batchC3 : ProcessBatch :=
  ⟨"m1", "Mem", none, "needs review",
    [⟨"d1", "inv.pdf", "pdf", 5, defaultData, some "url"⟩], 5, 1, "r1"⟩

/-- A context state holding `batchC3` in the in-memory collection. -/
def stateC3 : CtxState := ⟨[batchC3], none, none, false, none⟩

/-- A persisted row for the same record id, with different field data. -/
def rowC3 : ShipmentRow := ⟨"DB", none, "pending", none, 7⟩

/-- A load environment whose fetch succeeds with `rowC3`. -/
def envC3 : LoadEnv := ⟨some rowC3, "fresh1"⟩

/-- C3 counterexample: loading a record that is already present in the
session's in-memory collection still issues a network read (the record
fetch), refuting "issues no network read". -/
theorem claim_C3_counterexample :
    (stateC3.batches.find? (fun b => b.shipmentRequestId = "r1") = some batchC3) ∧
    (loadShipmentRequest stateC3 envC3 "r1").2 = [DbEffect.fetchRecord "r1"] ∧
    (loadShipmentRequest stateC3 envC3 "r1").2 ≠ ([] : List DbEffect) := by
  refine ⟨by decide, by decide, by decide⟩

/-- C3 (amended): `loadShipmentRequest` always issues exactly one record
fetch; when the record id is already present in the session's in-memory
collection and the fetch succeeds, the fetched copy is discarded and the
in-memory batch is made current unchanged — its field data identical to
what is in memory — with the collection itself untouched. -/
theorem claim_C3_session_cache_wins :
    ∀ (s : CtxState) (env : LoadEnv) (rid : String) (b : ProcessBatch) (row : ShipmentRow),
      s.batches.find? (fun x => x.shipmentRequestId = rid) = some b →
      env.fetchResult = some row →
      loadShipmentRequest s env rid =
        ({ s with
            currentBatch := some b
            currentDocument := b.files.head?
            isProcessing := false
            error := none }, [DbEffect.fetchRecord rid]) := by
  intro s env rid b row hfind hfetch
  obtain ⟨fetchResult, freshDocId⟩ := env
  simp only at hfetch
  subst hfetch
  simp [loadShipmentRequest, hfind]

/-- C3 witness: loading the session-resident record makes the in-memory
batch current, unchanged, with one fetch issued. -/
theorem claim_C3_witness :
    loadShipmentRequest stateC3 envC3 "r1" =
      ({ stateC3 with
          currentBatch := some batchC3
          currentDocument := batchC3.files.head?
          isProcessing := false
          error := none }, [DbEffect.fetchRecord "r1"]) :=
  claim_C3_session_cache_wins stateC3 envC3 "r1" batchC3 rowC3 (by decide) rfl

/-- The completed batch used to exercise `updateBatchStatus`. -/
def batchC4 : ProcessBatch := ⟨"b1", "T", none, "completed", [], 0, 1, "r1"⟩

/-- A context state holding the completed `batchC4`. -/
def stateC4 : CtxState := ⟨[batchC4], none, none, false, none⟩

/-- C4 counterexample: `updateBatchStatus` applied with status
"needs review" transitions a `completed` batch back to "needs review" —
refuting "no operation of the state machine, applied with any arguments,
transitions a completed batch back to needs-review". -/
theorem claim_C4_counterexample :
    (updateBatchStatus stateC4 "r1" "needs review").batches =
      [⟨"b1", "T", none, "needs review", [], 0, 1, "r1"⟩] := by
  decide

/-- C4 (amended): `updateDocumentData` never changes any batch's status (for
any arguments), while `updateBatchStatus` writes exactly the status it is
given into the matching batch — so a completed batch moves back to
"needs review" precisely when a caller passes that status; the state-machine
component itself does not guard completed batches (the spec assigns that
enforcement to the presentation layer). -/
theorem claim_C4_status_mirror :
    (∀ (s : CtxState) (id : String) (p : PartialShipmentData),
      (updateDocumentData s id p).batches.map ProcessBatch.status =
        s.batches.map ProcessBatch.status ∧
      (updateDocumentData s id p).currentBatch.map ProcessBatch.status =
        s.currentBatch.map ProcessBatch.status) ∧
    (∀ (s : CtxState) (rid st : String) (b : ProcessBatch),
      b ∈ (updateBatchStatus s rid st).batches →
      b.status = st ∨ (b ∈ s.batches ∧ b.shipmentRequestId ≠ rid)) := by
  constructor
  · intro s id p
    constructor
    · rw [updateDocumentData]
      rw [List.map_map]
      rfl
    · cases hcb : s.currentBatch with
      | none => simp [updateDocumentData, hcb]
      | some cb => simp [updateDocumentData, hcb]
  · intro s rid st b hb
    simp only [updateBatchStatus] at hb
    rw [List.mem_map] at hb
    obtain ⟨b0, hb0, heq⟩ := hb
    by_cases h : b0.shipmentRequestId = rid
    · rw [if_pos h] at heq
      left
      rw [← heq]
    · rw [if_neg h] at heq
      subst heq
      exact .inr ⟨hb0, h⟩

/-- C4 amended-claim witness: on the completed batch, `updateBatchStatus`
with "needs review" yields a batch whose status is exactly "needs review". -/
theorem claim_C4_witness :
    (⟨"b1", "T", none, "needs review", [], 0, 1, "r1"⟩ : ProcessBatch).status =
      "needs review" ∨
    ((⟨"b1", "T", none, "needs review", [], 0, 1, "r1"⟩ : ProcessBatch) ∈ stateC4.batches ∧
      (⟨"b1", "T", none, "needs review", [], 0, 1, "r1"⟩ : ProcessBatch).shipmentRequestId ≠
        "r1") :=
  claim_C4_status_mirror.2 stateC4 "r1" "needs review"
    ⟨"b1", "T", none, "needs review", [], 0, 1, "r1"⟩ (by decide)

end DocIntake
